import Mathlib

/-!
Shallow embedding of the coordination core of the SmolVLM video-analysis app
(`src/App.jsx`): the sequential multi-prompt inference queue, the worker
message handler, and the user-driven actions that touch the busy flag, the
pending-request queue, the per-prompt output buffers and the session status.

React state hooks and mutable refs are modelled as fields of one record
`AppState`; every event handler becomes a function
`AppState → AppState × List Effect`, where an `Effect` records an outward
call (a `worker.postMessage` or a `captureFrame` attempt).  The result of
`captureFrame` is environment-determined (it returns null when the video
element is not ready), so handlers that may capture take a
`frame : Option String` oracle argument.  The output-buffer object
`outputs` (initialised `\x7b 0: "", 1: "" \x7d` for the two session prompts) is
modelled as a total map `Nat → String` defaulting to `""`; every identifier
the app ever reads is initialised, so the JS `undefined` corner is
unreachable.

One closure subtlety of the source is modelled explicitly.  The effect that
registers `onMessageReceived` has an empty dependency array (App.jsx line
140), so the listener is registered once, on first mount, and permanently
captures the first-render `processRequestQueue` — the useCallback instance
created with `videoFramerate = 0` and `isAnalysisRunning = false`.  The ref
reads inside it (`pendingRequests.current`, `isWorkerBusy.current`,
`worker.current`) stay live across renders, but the continuous-mode guard
`videoFramerate === -1 && isAnalysisRunning` reads those two frozen
first-render constants and is therefore always false in the registered
listener.  `processRequestQueue` below is accordingly parameterised by the
closure-captured guard values, and the message handler passes the frozen
first-render pair `0, false`.
-/

namespace SmolVLM

/-- One entry of the `content` array of the structured chat message built by
`triggerInference`: either an image part or a text part. -/
inductive ContentPart where
  | image (image : String)
  | text (text : String)
deriving DecidableEq

/-- The structured prompt+image payload: `\x7b role, content \x7d`. -/
structure ChatMessage where
  role : String
  content : List ContentPart
deriving DecidableEq

/-- A prompt row: `\x7b id, text, enabled \x7d` (React `prompts` state). -/
structure Prompt where
  id : Nat
  text : String
  enabled : Bool
deriving DecidableEq

/-- A pending request: `\x7b id, message \x7d` as built by `triggerInference`. -/
structure Request where
  id : Nat
  message : List ChatMessage
deriving DecidableEq

/-- The session status: React `status` state, `null` / `"loading"` / `"ready"`. -/
inductive SessionStatus where
  | unloaded
  | loading
  | ready
deriving DecidableEq

/-- One model-file download progress row, as tracked by the `initiate` /
`progress` / `done` cases of the message handler.  The JS objects carry the
raw worker payload; the fields the handler ever consults or displays are the
file key and the progress numbers. -/
structure ProgressItem where
  file : String
  progress : Nat
  total : Nat
deriving DecidableEq

/-- Inbound worker messages (`e.data`), by `status` tag.  The `tps` number of
an `update` is only ever stored and displayed, never computed with, so it is
carried as an opaque numeric payload. -/
inductive InMsg where
  | loading (data : String)
  | initiate (item : ProgressItem)
  | progress (item : ProgressItem)
  | done (file : String)
  | ready
  | start (id : Nat)
  | update (id : Nat) (output : String) (tps : Float)
  | complete
  | error (data : String)

/-- Outbound `worker.postMessage` payloads, by `type` tag. -/
inductive OutMsg where
  | check
  | load
  | generate (data : List ChatMessage) (id : Nat)
  | interrupt
deriving DecidableEq

/-- An outward-visible effect of one handler invocation: a message posted to
the worker, or a call to `captureFrame` (which reads the video element). -/
inductive Effect where
  | capture
  | post (m : OutMsg)
deriving DecidableEq

/-- The whole coordination state of the component: React state hooks plus the
mutable refs `isWorkerBusy` and `pendingRequests`. -/
structure AppState where
  status : SessionStatus
  error : Option String
  loadingMessage : String
  progressItems : List ProgressItem
  inputSource : String
  videoFramerate : Rat
  isAnalysisRunning : Bool
  prompts : List Prompt
  outputs : Nat → String
  tps : Option Float
  isWorkerBusy : Bool
  pendingRequests : List Request

/-- The initial state of the component (the `useState` / `useRef` initialisers). -/
def initState : AppState where
  status := .unloaded
  error := none
  loadingMessage := ""
  progressItems := []
  inputSource := "camera"
  videoFramerate := 0
  isAnalysisRunning := false
  prompts := [⟨0, "What is the person doing?", true⟩, ⟨1, "", true⟩]
  outputs := fun _ => ""
  tps := none
  isWorkerBusy := false
  pendingRequests := []

/-- The separator marker inserted between generation passes by the `start`
handler. -/
def separator : String := "\n\n---------------\n"

/-- Whitespace-trim on the character list of a string: drop whitespace from
the front, and from the back via reverse.  This is the `String.trim` of the
runtime spelled out structurally (on the ASCII whitespace the app can
contain), so that it evaluates by kernel reduction. -/
def trimChars (l : List Char) : List Char :=
  ((l.dropWhile Char.isWhitespace).reverse.dropWhile Char.isWhitespace).reverse

/-- Eligibility filter of `triggerInference`:
`p.enabled && p.text.trim().length > 0`. -/
def eligible (p : Prompt) : Bool :=
  p.enabled && decide (0 < (trimChars p.text.data).length)

/-- The request built for one prompt:
`\x7b id: p.id, message: [\x7b role: "user", content: [image, text] \x7d] \x7d`. -/
def mkRequest (image : String) (p : Prompt) : Request where
  id := p.id
  message := [{ role := "user", content := [.image image, .text p.text] }]

/-- The request list built by `triggerInference` from the current prompts:
`prompts.filter(eligible).map(mkRequest)`. -/
def buildRequests (prompts : List Prompt) (image : String) : List Request :=
  (prompts.filter eligible).map (mkRequest image)

/-- `triggerInference` (App.jsx lines 255-279): return immediately while the
worker is busy; otherwise capture a frame, build the eligible requests, and
when there is at least one, store them in `pendingRequests` and invoke
`processRequestQueue`.  Since the stored queue is nonempty at that call, the
queue processor takes its dispatch branch — which reads only the refs, never
the closure-captured guard values, so it does not matter which closure
instance runs — and that branch is inlined here: pop the first request, set
the busy flag, and post one `generate` message. -/
def triggerInference (frame : Option String) (s : AppState) : AppState × List Effect :=
  if s.isWorkerBusy = true then (s, [])
  else
    match frame with
    | none => (s, [Effect.capture])
    | some image =>
      match buildRequests s.prompts image with
      | [] => (s, [Effect.capture])
      | r :: rest =>
          ({ s with isWorkerBusy := true, pendingRequests := rest },
           [Effect.capture, Effect.post (OutMsg.generate r.message r.id)])

/-- `processRequestQueue` (App.jsx lines 143-161): with an empty queue, clear
the busy flag and, when the guard `videoFramerate === -1 && isAnalysisRunning`
holds, call `triggerInference`; with a nonempty queue, pop the head, set the
busy flag, and post its `generate` message.

The function is a useCallback closure over `[videoFramerate,
isAnalysisRunning]`, so the guard reads the values captured at the creation
of whichever closure instance is being invoked, not the live state; they are
the explicit parameters `cbFramerate` and `cbRunning` here.  The queue and
the busy flag are refs and stay live in every instance.  The nested
`triggerInference` call renders the guard body; under the frozen
first-render pair `0, false` that the once-registered message listener
passes (see `handleInMsg`), the guard is false and that branch is dead, so
the staleness of the prompt list the first-render `triggerInference` would
close over never becomes observable and is not modelled separately. -/
def processRequestQueue (cbFramerate : Rat) (cbRunning : Bool)
    (frame : Option String) (s : AppState) : AppState × List Effect :=
  match s.pendingRequests with
  | [] =>
      if cbFramerate = -1 ∧ cbRunning = true then
        triggerInference frame { s with isWorkerBusy := false }
      else ({ s with isWorkerBusy := false }, [])
  | r :: rest =>
      ({ s with isWorkerBusy := true, pendingRequests := rest },
       [Effect.post (OutMsg.generate r.message r.id)])

/-- `onMessageReceived` (App.jsx lines 66-126), the switch over
`e.data.status`.  The listener is registered by an effect with an empty
dependency array (line 140), so the `complete` case invokes the first-render
`processRequestQueue` closure, whose guard values are frozen at the initial
`videoFramerate = 0` and `isAnalysisRunning = false`. -/
def handleInMsg (m : InMsg) (frame : Option String) (s : AppState) : AppState × List Effect :=
  match m with
  | .loading d =>
      ({ s with status := .loading, loadingMessage := d }, [])
  | .initiate item =>
      ({ s with progressItems := s.progressItems ++ [item] }, [])
  | .progress item =>
      ({ s with progressItems := s.progressItems.map fun it =>
                  if it.file = item.file then item else it }, [])
  | .done file =>
      ({ s with progressItems := s.progressItems.filter fun it => it.file ≠ file }, [])
  | .ready =>
      ({ s with status := .ready }, [])
  | .start id =>
      ({ s with outputs := fun j =>
                  if j = id then
                    (if s.outputs id = "" then "" else s.outputs id ++ separator)
                  else s.outputs j }, [])
  | .update id output newTps =>
      ({ s with tps := some newTps,
                outputs := fun j =>
                  if j = id then s.outputs j ++ output else s.outputs j }, [])
  | .complete => processRequestQueue 0 false frame s
  | .error d =>
      ({ s with error := some d, isWorkerBusy := false,
                isAnalysisRunning := false, pendingRequests := [] }, [])

/-- The inputs the core reacts to: worker message events, the worker error
DOM event (`onErrorReceived`, App.jsx lines 128-131), a capture trigger (the
Analyze-Frame button, an interval tick, or the continuous-mode kick-off), and
the user controls that touch the modelled state. -/
inductive Action where
  | msg (m : InMsg)
  | workerErrorEvent
  | trigger
  | toggleAnalysis
  | loadClick
  | updatePrompt (id : Nat) (text : String)
  | clearOutput (id : Nat)
  | setFramerate (v : Rat)
  | setInputSource (src : String)

/-- One step of the core on one action.  The `frame` oracle is what
`captureFrame` would return if the step calls it.  The Load-Model click is
only possible while `status === null` (the button is only rendered on that
panel); starting the loop with `toggleAnalysis` additionally plays the video
element, a DOM effect outside the modelled state, and the subsequent
interval ticks or continuous kick-off arrive as separate `trigger` actions. -/
def stepA (a : Action) (frame : Option String) (s : AppState) : AppState × List Effect :=
  match a with
  | .msg m => handleInMsg m frame s
  | .workerErrorEvent => ({ s with isWorkerBusy := false }, [])
  | .trigger => triggerInference frame s
  | .toggleAnalysis =>
      if s.isAnalysisRunning = true then
        ({ s with isAnalysisRunning := false, pendingRequests := [] },
         [Effect.post OutMsg.interrupt])
      else ({ s with isAnalysisRunning := true }, [])
  | .loadClick =>
      if s.status = .unloaded then
        ({ s with status := .loading }, [Effect.post OutMsg.load])
      else (s, [])
  | .updatePrompt id text =>
      ({ s with prompts := s.prompts.map fun p =>
                  if p.id = id then { p with text := text } else p }, [])
  | .clearOutput id =>
      ({ s with outputs := fun j => if j = id then "" else s.outputs j }, [])
  | .setFramerate v =>
      ({ s with videoFramerate := v }, [])
  | .setInputSource src =>
      ({ s with inputSource := src, isAnalysisRunning := false }, [])

/-- One entry of the observable timeline of a run: an action delivered to the
core, or an effect the core emitted. -/
inductive Item where
  | act (a : Action)
  | eff (e : Effect)

/-- Run the core over a list of actions (each paired with its frame oracle),
returning the final state and the interleaved timeline of actions and
effects. -/
def run : AppState → List (Action × Option String) → AppState × List Item
  | s, [] => (s, [])
  | s, (a, f) :: rest =>
      let st := stepA a f s
      let next := run st.1 rest
      (next.1, Item.act a :: (st.2.map Item.eff ++ next.2))

/-- Actions by which the worker reports that the current generation is over:
a `complete` message, an `error` message, or the worker error DOM event. -/
def isReport : Action → Bool
  | .msg .complete => true
  | .msg (.error _) => true
  | .workerErrorEvent => true
  | _ => false

/-- Effects that post a `generate` message. -/
def isGenPost : Effect → Bool
  | .post (.generate _ _) => true
  | _ => false

/-- Running count of generate requests posted since the worker last reported
completion or error: a report action resets it, a posted `generate` bumps it. -/
def bump (c : Nat) : Item → Nat
  | .act a => if isReport a then 0 else c
  | .eff e => if isGenPost e then c + 1 else c

/-- The open-generate count after a timeline. -/
def openAfter : Nat → List Item → Nat
  | c, [] => c
  | c, i :: rest => openAfter (bump c i) rest

/-- The largest open-generate count reached at any point of a timeline. -/
def maxOpen : Nat → List Item → Nat
  | c, [] => c
  | c, i :: rest => max c (maxOpen (bump c i) rest)

/-- The subsequence of `generate`-posting effects of a timeline, in order. -/
def postedGens : List Item → List Effect
  | [] => []
  | .eff e :: rest => if isGenPost e then e :: postedGens rest else postedGens rest
  | .act _ :: rest => postedGens rest

/-- `n` consecutive `complete` messages from the worker. -/
def completes (n : Nat) : List (Action × Option String) :=
  List.replicate n (Action.msg InMsg.complete, none)

/-! ### Basic lemmas about the queue machinery -/

/-- While the worker is busy, `triggerInference` returns at once: the state is
untouched and nothing is captured or posted. -/
lemma triggerInference_busy (f : Option String) (s : AppState)
    (h : s.isWorkerBusy = true) : triggerInference f s = (s, []) := by
  simp [triggerInference, h]

/-- The dispatch branch inlined in `triggerInference` agrees with
`processRequestQueue` run on the state whose queue was just set to the
nonempty request list, as in the source — for every closure instance, since
the dispatch branch never reads the captured guard values. -/
lemma triggerInference_dispatch_coherent (cbFramerate : Rat) (cbRunning : Bool)
    (f : Option String) (s : AppState) (r : Request) (rest : List Request) :
    processRequestQueue cbFramerate cbRunning f { s with pendingRequests := r :: rest } =
      ({ s with isWorkerBusy := true, pendingRequests := rest },
       [Effect.post (OutMsg.generate r.message r.id)]) := rfl

/-- The continuous-mode guard of the once-registered message listener is
frozen at the first-render values `videoFramerate = 0`,
`isAnalysisRunning = false`, and is therefore never satisfied. -/
lemma frozen_guard_false : ¬ ((0 : Rat) = -1 ∧ false = true) := by
  intro h
  exact absurd h.2 (by simp)

lemma le_maxOpen (l : List Item) : ∀ c, c ≤ maxOpen c l := by
  induction l with
  | nil => intro c; exact le_rfl
  | cons i rest ih => intro c; exact le_max_left _ _

lemma openAfter_append (xs ys : List Item) :
    ∀ c, openAfter c (xs ++ ys) = openAfter (openAfter c xs) ys := by
  induction xs with
  | nil => intro c; rfl
  | cons x xs ih => intro c; simp only [List.cons_append, openAfter]; exact ih _

lemma maxOpen_append (xs ys : List Item) :
    ∀ c, maxOpen c (xs ++ ys) = max (maxOpen c xs) (maxOpen (openAfter c xs) ys) := by
  induction xs with
  | nil =>
      intro c
      simp only [List.nil_append, maxOpen, openAfter]
      exact (max_eq_right (le_maxOpen ys c)).symm
  | cons x xs ih =>
      intro c
      simp only [List.cons_append, maxOpen, openAfter, List.append_eq, ih, max_assoc]

/-- Effect bound for `triggerInference` from a non-busy state: the running
open-generate count stays at most 1 throughout its effects, and if the
resulting state is still not busy then no generate was posted. -/
lemma trig_bound (f : Option String) (s : AppState) (h : s.isWorkerBusy = false) :
    maxOpen 0 ((triggerInference f s).2.map Item.eff) ≤ 1 ∧
      openAfter 0 ((triggerInference f s).2.map Item.eff) ≤ 1 ∧
      ((triggerInference f s).1.isWorkerBusy = false →
        openAfter 0 ((triggerInference f s).2.map Item.eff) = 0) := by
  cases f with
  | none =>
      simp [triggerInference, h, maxOpen, openAfter, bump, isGenPost]
  | some image =>
      cases hb : buildRequests s.prompts image with
      | nil => simp [triggerInference, h, hb, maxOpen, openAfter, bump, isGenPost]
      | cons r rest => simp [triggerInference, h, hb, maxOpen, openAfter, bump, isGenPost]

/-- Effect bound for one arbitrary step: entering with an open-generate count
`c` that is at most 1 and is zero whenever the worker is idle, the count stays
at most 1 across the action item and all its effects, and the two entry
conditions are re-established at the exit state. -/
lemma step_bound (a : Action) (f : Option String) (s : AppState) (c : Nat)
    (hc : c ≤ 1) (hb : s.isWorkerBusy = false → c = 0) :
    maxOpen (bump c (Item.act a)) ((stepA a f s).2.map Item.eff) ≤ 1 ∧
      openAfter (bump c (Item.act a)) ((stepA a f s).2.map Item.eff) ≤ 1 ∧
      ((stepA a f s).1.isWorkerBusy = false →
        openAfter (bump c (Item.act a)) ((stepA a f s).2.map Item.eff) = 0) := by
  cases a with
  | msg m =>
      cases m with
      | loading d =>
          simp [stepA, handleInMsg, bump, isReport, maxOpen, openAfter]
          exact ⟨hc, hb⟩
      | initiate item =>
          simp [stepA, handleInMsg, bump, isReport, maxOpen, openAfter]
          exact ⟨hc, hb⟩
      | progress item =>
          simp [stepA, handleInMsg, bump, isReport, maxOpen, openAfter]
          exact ⟨hc, hb⟩
      | done file =>
          simp [stepA, handleInMsg, bump, isReport, maxOpen, openAfter]
          exact ⟨hc, hb⟩
      | ready =>
          simp [stepA, handleInMsg, bump, isReport, maxOpen, openAfter]
          exact ⟨hc, hb⟩
      | start id =>
          simp [stepA, handleInMsg, bump, isReport, maxOpen, openAfter]
          exact ⟨hc, hb⟩
      | update id output newTps =>
          simp [stepA, handleInMsg, bump, isReport, maxOpen, openAfter]
          exact ⟨hc, hb⟩
      | error d =>
          simp [stepA, handleInMsg, bump, isReport, maxOpen, openAfter]
      | complete =>
          cases hq : s.pendingRequests with
          | nil =>
              simp [stepA, handleInMsg, processRequestQueue, hq, frozen_guard_false,
                bump, isReport, maxOpen, openAfter]
          | cons r rest =>
              simp [stepA, handleInMsg, processRequestQueue, hq, bump, isReport,
                maxOpen, openAfter, isGenPost]
  | workerErrorEvent =>
      simp [stepA, bump, isReport, maxOpen, openAfter]
  | trigger =>
      by_cases h : s.isWorkerBusy = true
      · simp [stepA, triggerInference, h, bump, isReport, maxOpen, openAfter]
        exact hc
      · have h0 : s.isWorkerBusy = false := by
          cases hbv : s.isWorkerBusy with
          | false => rfl
          | true => exact absurd hbv h
        have hcz : c = 0 := hb h0
        have ht := trig_bound f s h0
        simpa [stepA, bump, isReport, hcz] using ht
  | toggleAnalysis =>
      by_cases h : s.isAnalysisRunning = true
      · simp [stepA, h, bump, isReport, maxOpen, openAfter, isGenPost]
        exact ⟨hc, hb⟩
      · simp [stepA, h, bump, isReport, maxOpen, openAfter]
        exact ⟨hc, hb⟩
  | loadClick =>
      by_cases h : s.status = SessionStatus.unloaded
      · simp [stepA, h, bump, isReport, maxOpen, openAfter, isGenPost]
        exact ⟨hc, hb⟩
      · simp [stepA, h, bump, isReport, maxOpen, openAfter]
        exact ⟨hc, hb⟩
  | updatePrompt id text =>
      simp [stepA, bump, isReport, maxOpen, openAfter]
      exact ⟨hc, hb⟩
  | clearOutput id =>
      simp [stepA, bump, isReport, maxOpen, openAfter]
      exact ⟨hc, hb⟩
  | setFramerate v =>
      simp [stepA, bump, isReport, maxOpen, openAfter]
      exact ⟨hc, hb⟩
  | setInputSource src =>
      simp [stepA, bump, isReport, maxOpen, openAfter]
      exact ⟨hc, hb⟩

lemma postedGens_append (xs ys : List Item) :
    postedGens (xs ++ ys) = postedGens xs ++ postedGens ys := by
  induction xs with
  | nil => rfl
  | cons x xs ih =>
      cases x with
      | act a => simpa [postedGens] using ih
      | eff e =>
          by_cases h : isGenPost e = true
          · simp [postedGens, h, ih]
          · simp [postedGens, h, ih]

/-- Trace bound: starting from any state whose entry count satisfies the
invariant, the open-generate count never exceeds 1 along any run. -/
lemma maxOpen_run_le (l : List (Action × Option String)) :
    ∀ s c, c ≤ 1 → (s.isWorkerBusy = false → c = 0) → maxOpen c (run s l).2 ≤ 1 := by
  induction l with
  | nil =>
      intro s c hc _
      simpa [run, maxOpen] using hc
  | cons p rest ih =>
      rintro s c hc hb
      obtain ⟨a, f⟩ := p
      obtain ⟨h1, h2, h3⟩ := step_bound a f s c hc hb
      show maxOpen c (Item.act a :: ((stepA a f s).2.map Item.eff ++ (run (stepA a f s).1 rest).2)) ≤ 1
      rw [show maxOpen c (Item.act a :: ((stepA a f s).2.map Item.eff ++ (run (stepA a f s).1 rest).2)) =
            max c (maxOpen (bump c (Item.act a)) ((stepA a f s).2.map Item.eff ++ (run (stepA a f s).1 rest).2)) from rfl,
        maxOpen_append]
      exact max_le hc (max_le h1 (ih (stepA a f s).1 _ h2 h3))

/-- Preservation of the flag/queue synchronisation invariant by every action
except the worker error DOM event. -/
lemma idle_queue_step (a : Action) (f : Option String) (s : AppState)
    (ha : a ≠ Action.workerErrorEvent)
    (hs : s.isWorkerBusy = false → s.pendingRequests = []) :
    (stepA a f s).1.isWorkerBusy = false → (stepA a f s).1.pendingRequests = [] := by
  cases a with
  | msg m =>
      cases m with
      | loading d => simpa [stepA, handleInMsg] using hs
      | initiate item => simpa [stepA, handleInMsg] using hs
      | progress item => simpa [stepA, handleInMsg] using hs
      | done file => simpa [stepA, handleInMsg] using hs
      | ready => simpa [stepA, handleInMsg] using hs
      | start id => simpa [stepA, handleInMsg] using hs
      | update id output newTps => simpa [stepA, handleInMsg] using hs
      | error d => simp [stepA, handleInMsg]
      | complete =>
          cases hq : s.pendingRequests with
          | nil =>
              simp [stepA, handleInMsg, processRequestQueue, hq, frozen_guard_false]
          | cons r rest => simp [stepA, handleInMsg, processRequestQueue, hq]
  | workerErrorEvent => exact absurd rfl ha
  | trigger =>
      by_cases h : s.isWorkerBusy = true
      · simp [stepA, triggerInference, h]
      · have h0 : s.isWorkerBusy = false := by
          cases hbv : s.isWorkerBusy with
          | false => rfl
          | true => exact absurd hbv h
        cases f with
        | none => simpa [stepA, triggerInference, h0] using hs
        | some image =>
            cases hb : buildRequests s.prompts image with
            | nil => simpa [stepA, triggerInference, h0, hb] using hs
            | cons r rest => simp [stepA, triggerInference, h0, hb]
  | toggleAnalysis =>
      by_cases h : s.isAnalysisRunning = true
      · simp [stepA, h]
      · simpa [stepA, h] using hs
  | loadClick =>
      by_cases h : s.status = SessionStatus.unloaded
      · simpa [stepA, h] using hs
      · simpa [stepA, h] using hs
  | updatePrompt id text => simpa [stepA] using hs
  | clearOutput id => simpa [stepA] using hs
  | setFramerate v => simpa [stepA] using hs
  | setInputSource src => simpa [stepA] using hs

/-- The flag/queue invariant holds along every run that contains no worker
error DOM event. -/
lemma idle_queue_run (l : List (Action × Option String)) :
    ∀ s, (∀ p ∈ l, p.1 ≠ Action.workerErrorEvent) →
      (s.isWorkerBusy = false → s.pendingRequests = []) →
      ((run s l).1.isWorkerBusy = false → (run s l).1.pendingRequests = []) := by
  induction l with
  | nil => intro s _ hs; simpa [run] using hs
  | cons p rest ih =>
      rintro s hl hs
      obtain ⟨a, f⟩ := p
      have ha : a ≠ Action.workerErrorEvent := hl (a, f) (List.mem_cons_self _ _)
      have hrest : ∀ q ∈ rest, q.1 ≠ Action.workerErrorEvent :=
        fun q hq => hl q (List.mem_cons_of_mem _ hq)
      show (run (stepA a f s).1 rest).1.isWorkerBusy = false →
        (run (stepA a f s).1 rest).1.pendingRequests = []
      exact ih (stepA a f s).1 hrest (idle_queue_step a f s ha hs)

/-- Draining the queue: from any state, `n ≤ |queue|` consecutive `complete`
messages post exactly the first `n` queued requests, in insertion order. -/
lemma drain_in_order (n : Nat) :
    ∀ s, n ≤ s.pendingRequests.length →
      postedGens (run s (completes n)).2 =
        (s.pendingRequests.take n).map
          (fun r => Effect.post (OutMsg.generate r.message r.id)) := by
  induction n with
  | zero => intro s _; simp [completes, run, postedGens]
  | succ n ih =>
      intro s hn
      cases hq : s.pendingRequests with
      | nil => rw [hq] at hn; exact absurd hn (by simp)
      | cons r rest =>
          have hstep : stepA (Action.msg InMsg.complete) none s =
              ({ s with isWorkerBusy := true, pendingRequests := rest },
               [Effect.post (OutMsg.generate r.message r.id)]) := by
            simp [stepA, handleInMsg, processRequestQueue, hq]
          have hn' : n ≤ rest.length := by
            rw [hq] at hn; simpa using Nat.le_of_succ_le_succ hn
          have := ih { s with isWorkerBusy := true, pendingRequests := rest } (by simpa using hn')
          simp only [completes, List.replicate_succ] at *
          simp [run, hstep, postedGens_append, postedGens, isGenPost, hq, this]

/-- Neither branch of `triggerInference` touches the output buffers. -/
lemma outputs_triggerInference (f : Option String) (s : AppState) :
    (triggerInference f s).1.outputs = s.outputs := by
  by_cases h : s.isWorkerBusy = true
  · simp [triggerInference, h]
  · cases f with
    | none => simp [triggerInference, h]
    | some image =>
        cases hb : buildRequests s.prompts image with
        | nil => simp [triggerInference, h, hb]
        | cons r rest => simp [triggerInference, h, hb]

/-- Neither branch of `processRequestQueue` touches the output buffers,
whatever guard values the invoked closure instance captured. -/
lemma outputs_processRequestQueue (cbFramerate : Rat) (cbRunning : Bool)
    (f : Option String) (s : AppState) :
    (processRequestQueue cbFramerate cbRunning f s).1.outputs = s.outputs := by
  cases hq : s.pendingRequests with
  | nil =>
      by_cases hcond : cbFramerate = -1 ∧ cbRunning = true
      · simp [processRequestQueue, hq, hcond, outputs_triggerInference]
      · simp [processRequestQueue, hq, hcond]
  | cons r rest => simp [processRequestQueue, hq]

/-- Neither branch of `triggerInference` touches the session status. -/
lemma status_triggerInference (f : Option String) (s : AppState) :
    (triggerInference f s).1.status = s.status := by
  by_cases h : s.isWorkerBusy = true
  · simp [triggerInference, h]
  · cases f with
    | none => simp [triggerInference, h]
    | some image =>
        cases hb : buildRequests s.prompts image with
        | nil => simp [triggerInference, h, hb]
        | cons r rest => simp [triggerInference, h, hb]

/-- Neither branch of `processRequestQueue` touches the session status,
whatever guard values the invoked closure instance captured. -/
lemma status_processRequestQueue (cbFramerate : Rat) (cbRunning : Bool)
    (f : Option String) (s : AppState) :
    (processRequestQueue cbFramerate cbRunning f s).1.status = s.status := by
  cases hq : s.pendingRequests with
  | nil =>
      by_cases hcond : cbFramerate = -1 ∧ cbRunning = true
      · simp [processRequestQueue, hq, hcond, status_triggerInference]
      · simp [processRequestQueue, hq, hcond]
  | cons r rest => simp [processRequestQueue, hq]

/-! ### Concrete states used by witnesses -/

/-- A state with the worker busy on an earlier request and two requests still
queued, as mid-drain of a three-prompt capture. -/
def busyDraining : AppState :=
  { initState with
      isWorkerBusy := true
      pendingRequests :=
        [⟨0, [⟨"user", [.image "img", .text "Describe the scene"]⟩]⟩,
         ⟨1, [⟨"user", [.image "img", .text "Count the people"]⟩]⟩] }

/-- An idle ready state with a mixed prompt set: one eligible prompt, one
disabled prompt, one whitespace-only prompt. -/
def mixedPrompts : AppState :=
  { initState with
      status := .ready
      prompts :=
        [⟨0, "Describe the scene", true⟩, ⟨1, "ignored", false⟩, ⟨2, "   ", true⟩] }

/-- An idle continuous-mode state with the analysis loop running and the
queue drained. -/
def continuousIdle : AppState :=
  { initState with videoFramerate := -1, isAnalysisRunning := true }

/-! ### The claims -/

/-- C1: at most one generate request is ever in flight at the worker
boundary.  First, `triggerInference` returns immediately, dispatching
nothing and leaving the state untouched, whenever the busy flag is set, so a
capture trigger arriving mid-flight is dropped, not queued.  Second, along
every run from the initial state, the number of `generate` messages posted
since the worker last reported `complete` or `error` never exceeds one at
any point of the timeline. -/
theorem c1_single_flight :
    (∀ (f : Option String) (s : AppState), s.isWorkerBusy = true →
      triggerInference f s = (s, [])) ∧
    (∀ l : List (Action × Option String), maxOpen 0 (run initState l).2 ≤ 1) := by
  constructor
  · exact fun f s h => triggerInference_busy f s h
  · exact fun l => maxOpen_run_le l initState 0 (by norm_num) (fun _ => rfl)

/-- Witness for C1 at concrete inputs: a trigger on a busy state is a strict
no-op, and a concrete capture-complete run keeps the open count at one. -/
theorem c1_single_flight_witness :
    triggerInference (some "img") busyDraining = (busyDraining, []) ∧
      maxOpen 0 (run initState
        [(Action.trigger, some "img"), (Action.msg InMsg.complete, none)]).2 ≤ 1 :=
  ⟨c1_single_flight.1 (some "img") busyDraining rfl,
   c1_single_flight.2 [(Action.trigger, some "img"), (Action.msg InMsg.complete, none)]⟩

/-- C2: dispatch is strictly sequential and in insertion order.  First, from
any state, `n ≤ |queue|` consecutive `complete` events post exactly the first
`n` queued requests in insertion order (each one popped and posted inside the
handler of the `complete` for its predecessor).  Second, while the worker is
busy, no action other than a `complete` message makes the core post a
`generate`. -/
theorem c2_sequential_in_order :
    (∀ (n : Nat) (s : AppState), n ≤ s.pendingRequests.length →
      postedGens (run s (completes n)).2 =
        (s.pendingRequests.take n).map
          (fun r => Effect.post (OutMsg.generate r.message r.id))) ∧
    (∀ (a : Action) (f : Option String) (s : AppState), s.isWorkerBusy = true →
      (stepA a f s).2.filter isGenPost ≠ [] → a = Action.msg InMsg.complete) := by
  constructor
  · exact fun n s h => drain_in_order n s h
  · intro a f s hbusy hpost
    cases a with
    | msg m =>
        cases m with
        | loading d => simp [stepA, handleInMsg, isGenPost] at hpost
        | initiate item => simp [stepA, handleInMsg, isGenPost] at hpost
        | progress item => simp [stepA, handleInMsg, isGenPost] at hpost
        | done file => simp [stepA, handleInMsg, isGenPost] at hpost
        | ready => simp [stepA, handleInMsg, isGenPost] at hpost
        | start id => simp [stepA, handleInMsg, isGenPost] at hpost
        | update id output newTps => simp [stepA, handleInMsg, isGenPost] at hpost
        | complete => rfl
        | error d => simp [stepA, handleInMsg, isGenPost] at hpost
    | workerErrorEvent => simp [stepA, isGenPost] at hpost
    | trigger => simp [stepA, triggerInference, hbusy] at hpost
    | toggleAnalysis =>
        by_cases h : s.isAnalysisRunning = true
        · simp [stepA, h, isGenPost] at hpost
        · simp [stepA, h, isGenPost] at hpost
    | loadClick =>
        by_cases h : s.status = SessionStatus.unloaded
        · simp [stepA, h, isGenPost] at hpost
        · simp [stepA, h, isGenPost] at hpost
    | updatePrompt id text => simp [stepA, isGenPost] at hpost
    | clearOutput id => simp [stepA, isGenPost] at hpost
    | setFramerate v => simp [stepA, isGenPost] at hpost
    | setInputSource src => simp [stepA, isGenPost] at hpost

/-- Witness for C2 at a concrete mid-drain state: draining the two queued
requests posts exactly their generate messages in insertion order. -/
theorem c2_sequential_in_order_witness :
    postedGens (run busyDraining (completes 2)).2 =
      (busyDraining.pendingRequests.take 2).map
        (fun r => Effect.post (OutMsg.generate r.message r.id)) :=
  c2_sequential_in_order.1 2 busyDraining (by decide)

/-- C3: for every prompt list and successful capture, `triggerInference`
builds exactly one request per enabled prompt with non-empty trimmed text, in
prompt order; every built request stems from such an eligible prompt, every
eligible prompt contributes its request, an empty eligible set is a silent
no-op, and otherwise the built requests become exactly the dispatched head
plus the stored queue. -/
theorem c3_requests_from_eligible_prompts (s : AppState) (image : String)
    (hbusy : s.isWorkerBusy = false) :
    buildRequests s.prompts image = (s.prompts.filter eligible).map (mkRequest image) ∧
    (∀ r ∈ buildRequests s.prompts image,
      ∃ p, p ∈ s.prompts ∧ eligible p = true ∧ r = mkRequest image p) ∧
    (∀ p ∈ s.prompts, eligible p = true →
      mkRequest image p ∈ buildRequests s.prompts image) ∧
    (buildRequests s.prompts image = [] →
      triggerInference (some image) s = (s, [Effect.capture])) ∧
    (∀ r rest, buildRequests s.prompts image = r :: rest →
      triggerInference (some image) s =
        ({ s with isWorkerBusy := true, pendingRequests := rest },
         [Effect.capture, Effect.post (OutMsg.generate r.message r.id)])) := by
  refine ⟨rfl, ?_, ?_, ?_, ?_⟩
  · intro r hr
    obtain ⟨p, hp, rfl⟩ := List.mem_map.mp hr
    obtain ⟨hmem, helig⟩ := List.mem_filter.mp hp
    exact ⟨p, hmem, helig, rfl⟩
  · intro p hp helig
    exact List.mem_map.mpr ⟨p, List.mem_filter.mpr ⟨hp, helig⟩, rfl⟩
  · intro hnil
    simp [triggerInference, hbusy, hnil]
  · intro r rest hcons
    simp [triggerInference, hbusy, hcons]

/-- Witness for C3 at a concrete mixed prompt set: one eligible prompt, one
disabled prompt, one whitespace-only prompt yield exactly the filtered
request list. -/
theorem c3_requests_from_eligible_prompts_witness :
    buildRequests mixedPrompts.prompts "img" =
      (mixedPrompts.prompts.filter eligible).map (mkRequest "img") :=
  (c3_requests_from_eligible_prompts mixedPrompts "img" rfl).1

/-- C4: the claim — and the spec it renders — say that in continuous
(max-speed) mode with the analysis loop running, a new frame capture is
triggered exactly when the previous capture has fully drained.  The code
contains the guard for this (App.jsx lines 146-148), but the listener that
handles `complete` was registered by an effect with empty dependencies (line
140), so the guard runs in the first-render closure, against the frozen
values `videoFramerate = 0` and `isAnalysisRunning = false`, and never
fires: evaluated at the failing input — a continuous-mode state, loop
running, in-flight request just completed, queue drained, a frame available
— the handler merely clears the busy flag and emits no capture or post at
all, where the claim requires a capture. -/
theorem c4_no_capture_on_drain :
    handleInMsg InMsg.complete (some "img")
        { continuousIdle with isWorkerBusy := true } =
      ({ continuousIdle with isWorkerBusy := false }, []) ∧
    Effect.capture ∉
      (handleInMsg InMsg.complete (some "img")
        { continuousIdle with isWorkerBusy := true }).2 := by
  constructor
  · rfl
  · decide

/-- C5: the worker `error` event handler, in one step, records the error
message, clears the busy flag, stops the analysis loop, and discards the
whole pending queue, emitting no effect at all (in particular no retry). -/
theorem c5_error_clears_everything (s : AppState) (d : String) (f : Option String) :
    handleInMsg (InMsg.error d) f s =
      ({ s with error := some d, isWorkerBusy := false,
                isAnalysisRunning := false, pendingRequests := [] }, []) := rfl

/-- C6: an `update` event appends its token to the buffer keyed by its
request identifier and leaves every other buffer exactly unchanged. -/
theorem c6_update_appends_only_own_buffer (s : AppState) (id : Nat)
    (output : String) (newTps : Float) (f : Option String) :
    (handleInMsg (InMsg.update id output newTps) f s).1.outputs id =
      s.outputs id ++ output ∧
    (∀ j, j ≠ id →
      (handleInMsg (InMsg.update id output newTps) f s).1.outputs j = s.outputs j) := by
  constructor
  · simp [handleInMsg]
  · intro j hj
    simp [handleInMsg, hj]

/-- Witness for C6 at the initial state: an update for id 0 appends there and
leaves buffer 1 unchanged. -/
theorem c6_update_appends_only_own_buffer_witness :
    (handleInMsg (InMsg.update 0 "token" 0 ) none initState).1.outputs 0 =
      initState.outputs 0 ++ "token" ∧
    (handleInMsg (InMsg.update 0 "token" 0 ) none initState).1.outputs 1 =
      initState.outputs 1 :=
  ⟨(c6_update_appends_only_own_buffer initState 0 "token" 0 none).1,
   (c6_update_appends_only_own_buffer initState 0 "token" 0 none).2 1 (by decide)⟩

/-- C7 counterexample: the claim says a `start` event appends the separator
marker to the previously accumulated text, but on an empty buffer the
handler yields the empty string, not the separator. -/
theorem c7_start_separator_counterexample :
    ¬ ((handleInMsg (InMsg.start 0) none initState).1.outputs 0 =
        initState.outputs 0 ++ separator) := by decide

/-- C7 (amended): a `start` event appends the separator marker to the buffer
of its identifier only when text has already accumulated there; on an empty
buffer it leaves it empty.  Other buffers are untouched, every action except
the explicit clear of a buffer only ever appends to it, and the explicit
clear resets it to empty. -/
theorem c7_start_separator_amended (s : AppState) (id : Nat) (f : Option String) :
    (s.outputs id ≠ "" →
      (handleInMsg (InMsg.start id) f s).1.outputs id = s.outputs id ++ separator) ∧
    (s.outputs id = "" → (handleInMsg (InMsg.start id) f s).1.outputs id = "") ∧
    (∀ j, j ≠ id → (handleInMsg (InMsg.start id) f s).1.outputs j = s.outputs j) ∧
    (∀ (a : Action) (j : Nat), a ≠ Action.clearOutput j →
      ∃ t, (stepA a f s).1.outputs j = s.outputs j ++ t) ∧
    (stepA (Action.clearOutput id) f s).1.outputs id = "" := by
  refine ⟨?_, ?_, ?_, ?_, by simp [stepA]⟩
  · intro h
    simp [handleInMsg, h]
  · intro h
    simp [handleInMsg, h]
  · intro j hj
    simp [handleInMsg, hj]
  · intro a j ha
    cases a with
    | msg m =>
        cases m with
        | loading d => exact ⟨"", by simp [stepA, handleInMsg]⟩
        | initiate item => exact ⟨"", by simp [stepA, handleInMsg]⟩
        | progress item => exact ⟨"", by simp [stepA, handleInMsg]⟩
        | done file => exact ⟨"", by simp [stepA, handleInMsg]⟩
        | ready => exact ⟨"", by simp [stepA, handleInMsg]⟩
        | start i =>
            by_cases hji : j = i
            · subst hji
              by_cases hz : s.outputs j = ""
              · exact ⟨"", by simp [stepA, handleInMsg, hz]⟩
              · exact ⟨separator, by simp [stepA, handleInMsg, hz]⟩
            · exact ⟨"", by simp [stepA, handleInMsg, hji]⟩
        | update i output newTps =>
            by_cases hji : j = i
            · subst hji
              exact ⟨output, by simp [stepA, handleInMsg]⟩
            · exact ⟨"", by simp [stepA, handleInMsg, hji]⟩
        | complete => exact ⟨"", by simp [stepA, handleInMsg, outputs_processRequestQueue]⟩
        | error d => exact ⟨"", by simp [stepA, handleInMsg]⟩
    | workerErrorEvent => exact ⟨"", by simp [stepA]⟩
    | trigger => exact ⟨"", by simp [stepA, outputs_triggerInference]⟩
    | toggleAnalysis =>
        by_cases h : s.isAnalysisRunning = true
        · exact ⟨"", by simp [stepA, h]⟩
        · exact ⟨"", by simp [stepA, h]⟩
    | loadClick =>
        by_cases h : s.status = SessionStatus.unloaded
        · exact ⟨"", by simp [stepA, h]⟩
        · exact ⟨"", by simp [stepA, h]⟩
    | updatePrompt i text => exact ⟨"", by simp [stepA]⟩
    | clearOutput i =>
        have hij : ¬ j = i := fun hji => ha (by rw [hji])
        exact ⟨"", by simp [stepA, hij]⟩
    | setFramerate v => exact ⟨"", by simp [stepA]⟩
    | setInputSource src => exact ⟨"", by simp [stepA]⟩

/-- Witness for C7 (amended) at a concrete non-empty buffer: the separator is
appended on `start`. -/
theorem c7_start_separator_amended_witness :
    (handleInMsg (InMsg.start 0) none
        { initState with outputs := fun j => if j = 0 then "earlier" else "" }).1.outputs 0 =
      "earlier" ++ separator :=
  (c7_start_separator_amended
      { initState with outputs := fun j => if j = 0 then "earlier" else "" }
      0 none).1 (by decide)

/-- C8 counterexample: the session status is not monotonic against every
event sequence: after `ready`, a further `loading` message from the worker
sets the status back to loading. -/
theorem c8_status_monotonic_counterexample :
    (run initState [(Action.msg InMsg.ready, none)]).1.status = SessionStatus.ready ∧
    (run initState [(Action.msg InMsg.ready, none),
        (Action.msg (InMsg.loading "Loading model"), none)]).1.status =
      SessionStatus.loading ∧
    SessionStatus.loading ≠ SessionStatus.ready := by
  refine ⟨rfl, rfl, by decide⟩

/-- C8 (amended): the status never returns to unloaded (null), and from
ready the only possible regression is a further worker `loading` event,
which sets it back to loading; absent such an event, ready is preserved by
every step. -/
theorem c8_status_monotonic_amended (s : AppState) (a : Action) (f : Option String) :
    (s.status ≠ SessionStatus.unloaded →
      (stepA a f s).1.status ≠ SessionStatus.unloaded) ∧
    (s.status = SessionStatus.ready →
      (stepA a f s).1.status = SessionStatus.ready ∨
        ∃ d, a = Action.msg (InMsg.loading d) ∧
          (stepA a f s).1.status = SessionStatus.loading) := by
  cases a with
  | msg m =>
      cases m with
      | loading d =>
          exact ⟨fun _ => by simp [stepA, handleInMsg],
            fun _ => Or.inr ⟨d, rfl, by simp [stepA, handleInMsg]⟩⟩
      | initiate item => exact ⟨fun h => by simpa [stepA, handleInMsg] using h,
          fun h => Or.inl (by simpa [stepA, handleInMsg] using h)⟩
      | progress item => exact ⟨fun h => by simpa [stepA, handleInMsg] using h,
          fun h => Or.inl (by simpa [stepA, handleInMsg] using h)⟩
      | done file => exact ⟨fun h => by simpa [stepA, handleInMsg] using h,
          fun h => Or.inl (by simpa [stepA, handleInMsg] using h)⟩
      | ready => exact ⟨fun _ => by simp [stepA, handleInMsg],
          fun _ => Or.inl (by simp [stepA, handleInMsg])⟩
      | start id => exact ⟨fun h => by simpa [stepA, handleInMsg] using h,
          fun h => Or.inl (by simpa [stepA, handleInMsg] using h)⟩
      | update id output newTps => exact ⟨fun h => by simpa [stepA, handleInMsg] using h,
          fun h => Or.inl (by simpa [stepA, handleInMsg] using h)⟩
      | complete => exact
          ⟨fun h => by simpa [stepA, handleInMsg, status_processRequestQueue] using h,
           fun h => Or.inl (by simpa [stepA, handleInMsg, status_processRequestQueue] using h)⟩
      | error d => exact ⟨fun h => by simpa [stepA, handleInMsg] using h,
          fun h => Or.inl (by simpa [stepA, handleInMsg] using h)⟩
  | workerErrorEvent => exact ⟨fun h => by simpa [stepA] using h,
      fun h => Or.inl (by simpa [stepA] using h)⟩
  | trigger => exact ⟨fun h => by simpa [stepA, status_triggerInference] using h,
      fun h => Or.inl (by simpa [stepA, status_triggerInference] using h)⟩
  | toggleAnalysis =>
      by_cases hr : s.isAnalysisRunning = true
      · exact ⟨fun h => by simpa [stepA, hr] using h,
          fun h => Or.inl (by simpa [stepA, hr] using h)⟩
      · exact ⟨fun h => by simpa [stepA, hr] using h,
          fun h => Or.inl (by simpa [stepA, hr] using h)⟩
  | loadClick =>
      by_cases hu : s.status = SessionStatus.unloaded
      · exact ⟨fun h => absurd hu h, fun h => by rw [hu] at h; exact absurd h (by decide)⟩
      · exact ⟨fun _ => by simp [stepA, hu],
          fun h => Or.inl (by simpa [stepA, hu] using h)⟩
  | updatePrompt id text => exact ⟨fun h => by simpa [stepA] using h,
      fun h => Or.inl (by simpa [stepA] using h)⟩
  | clearOutput id => exact ⟨fun h => by simpa [stepA] using h,
      fun h => Or.inl (by simpa [stepA] using h)⟩
  | setFramerate v => exact ⟨fun h => by simpa [stepA] using h,
      fun h => Or.inl (by simpa [stepA] using h)⟩
  | setInputSource src => exact ⟨fun h => by simpa [stepA] using h,
      fun h => Or.inl (by simpa [stepA] using h)⟩

/-- Witness for C8 (amended) at a concrete ready state under a trigger: the
status stays away from unloaded. -/
theorem c8_status_monotonic_amended_witness :
    (stepA Action.trigger (some "img") mixedPrompts).1.status ≠
      SessionStatus.unloaded :=
  (c8_status_monotonic_amended mixedPrompts Action.trigger (some "img")).1 (by decide)

/-- C9: stopping a running analysis loop, in the same step, stops the loop,
posts exactly the `interrupt` message to the worker, and empties the pending
queue; the busy flag — the record of the in-flight request — is left alone. -/
theorem c9_stop_interrupts_and_discards (s : AppState) (f : Option String)
    (h : s.isAnalysisRunning = true) :
    stepA Action.toggleAnalysis f s =
      ({ s with isAnalysisRunning := false, pendingRequests := [] },
       [Effect.post OutMsg.interrupt]) ∧
    (stepA Action.toggleAnalysis f s).1.isWorkerBusy = s.isWorkerBusy := by
  constructor
  · simp [stepA, h]
  · simp [stepA, h]

/-- Witness for C9 at a concrete running state. -/
theorem c9_stop_interrupts_and_discards_witness :
    stepA Action.toggleAnalysis none continuousIdle =
      ({ continuousIdle with isAnalysisRunning := false, pendingRequests := [] },
       [Effect.post OutMsg.interrupt]) :=
  (c9_stop_interrupts_and_discards continuousIdle none rfl).1

/-- C10 counterexample: the flag/queue synchronisation invariant fails on
the code: after editing the second prompt, triggering a capture (two
requests built, one dispatched, one queued) and then receiving a worker
error DOM event, the busy flag is false while the queue still holds an
undispatched request. -/
theorem c10_idle_empty_queue_counterexample :
    (run initState [(Action.updatePrompt 1 "Count the people", none),
        (Action.trigger, some "img"), (Action.workerErrorEvent, none)]).1.isWorkerBusy =
      false ∧
    (run initState [(Action.updatePrompt 1 "Count the people", none),
        (Action.trigger, some "img"), (Action.workerErrorEvent, none)]).1.pendingRequests ≠
      [] := by
  refine ⟨rfl, by decide⟩

/-- C10 (amended): in every state reachable without a worker error DOM
event, an idle worker flag implies an empty pending queue — the drain and
message-error paths clear the flag only together with the queue; the worker
error DOM event listener, however, clears the flag while leaving the queue
intact. -/
theorem c10_idle_empty_queue_amended (l : List (Action × Option String))
    (hl : ∀ p ∈ l, p.1 ≠ Action.workerErrorEvent) :
    (run initState l).1.isWorkerBusy = false →
      (run initState l).1.pendingRequests = [] :=
  idle_queue_run l initState hl (fun _ => rfl)

/-- Witness for C10 (amended) at a concrete capture-complete run. -/
theorem c10_idle_empty_queue_amended_witness :
    (run initState [(Action.trigger, some "img"),
        (Action.msg InMsg.complete, none)]).1.pendingRequests = [] :=
  c10_idle_empty_queue_amended
    [(Action.trigger, some "img"), (Action.msg InMsg.complete, none)]
    (by
      intro p hp
      simp only [List.mem_cons, List.not_mem_nil] at hp
      rcases hp with rfl | rfl | h
      · simp
      · simp
      · exact absurd h (by simp))
    (by decide)

end SmolVLM
